import Mathlib

/-!
Verification development for the webkin kinematic-tree visualization server.

The C++ sources are shallowly embedded: `double` is modelled by `ℚ` (all the
arithmetic the claims exercise is exact field arithmetic), and the calls to
`std::sin` / `std::cos` are abstracted by a pair of scalar functions carried
as an explicit `Trig` argument, so that every theorem holds for every
interpretation of the trigonometric functions.  Mutating C++ code is modelled
by state-passing functions.
-/

namespace Webkin

/-- Abstraction of the trigonometric calls of `Quat::from_axis_angle`
(`std::sin`, `std::cos`). -/
structure Trig where
  sinFn : ℚ → ℚ
  cosFn : ℚ → ℚ

/-- `webkin::Vec3` (kinematic.hpp): three doubles, default `(0,0,0)`. -/
structure Vec3 where
  x : ℚ
  y : ℚ
  z : ℚ
deriving DecidableEq

/-- Default-constructed `Vec3()`. -/
def Vec3.zero : Vec3 := ⟨0, 0, 0⟩

/-- `Vec3::operator+`. -/
def Vec3.add (a b : Vec3) : Vec3 := ⟨a.x + b.x, a.y + b.y, a.z + b.z⟩

/-- `Vec3::operator*` (scalar on the right). -/
def Vec3.smul (a : Vec3) (s : ℚ) : Vec3 := ⟨a.x * s, a.y * s, a.z * s⟩

/-- `webkin::Quat` (kinematic.hpp): stored as `(x,y,z,w)`, default `(0,0,0,1)`. -/
structure Quat where
  x : ℚ
  y : ℚ
  z : ℚ
  w : ℚ
deriving DecidableEq

/-- Default-constructed `Quat()`, the identity quaternion `(0,0,0,1)`. -/
def Quat.identity : Quat := ⟨0, 0, 0, 1⟩

/-- `Quat::operator*`, the Hamilton product exactly as written in the source. -/
def Quat.mul (a b : Quat) : Quat :=
  ⟨a.w * b.x + a.x * b.w + a.y * b.z - a.z * b.y,
   a.w * b.y - a.x * b.z + a.y * b.w + a.z * b.x,
   a.w * b.z + a.x * b.y - a.y * b.x + a.z * b.w,
   a.w * b.w - a.x * b.x - a.y * b.y - a.z * b.z⟩

/-- `Quat::rotate_vec`: the sandwich `q · (v,0) · q*`. -/
def Quat.rotate_vec (q : Quat) (v : Vec3) : Vec3 :=
  let qv : Quat := ⟨v.x, v.y, v.z, 0⟩
  let conj : Quat := ⟨-q.x, -q.y, -q.z, q.w⟩
  let r := (q.mul qv).mul conj
  ⟨r.x, r.y, r.z⟩

/-- `Quat::from_axis_angle`: `h = θ/2`, `s = sin h`, components
`(axis.x·s, axis.y·s, axis.z·s, cos h)`.  The axis is not renormalized. -/
def Quat.from_axis_angle (tm : Trig) (axis : Vec3) (angle : ℚ) : Quat :=
  let half := angle / 2
  let s := tm.sinFn half
  ⟨axis.x * s, axis.y * s, axis.z * s, tm.cosFn half⟩

/-- Squared euclidean norm of a quaternion (used to state that a stored
quaternion is or is not a unit quaternion). -/
def Quat.normSq (q : Quat) : ℚ := q.x * q.x + q.y * q.y + q.z * q.z + q.w * q.w

/-- `webkin::Pose`: position plus orientation. -/
structure Pose where
  position : Vec3
  orientation : Quat
deriving DecidableEq

/-- Default-constructed `Pose()`: the identity pose `((0,0,0),(0,0,0,1))`. -/
def Pose.identity : Pose := ⟨Vec3.zero, Quat.identity⟩

/-- `Pose::operator*`: `(p1 + q1·p2, q1·q2)`. -/
def Pose.mul (p q : Pose) : Pose :=
  ⟨p.position.add (p.orientation.rotate_vec q.position),
   p.orientation.mul q.orientation⟩

/-- Scalar fields of `webkin::KinematicNode` (kinematic.hpp).  `global_pose`
is the output slot written by the forward pass.  `model` is the opaque
pass-through blob (`nos::trent model`), represented by an identifier. -/
structure NodeData where
  name : String
  type : String
  local_pose : Pose
  axis : Vec3
  axis_offset : ℚ
  axis_scale : ℚ
  coord : ℚ
  /-- Modelled from the spec: the `slider_min` field of a joint node.  The
  node declaration under `src` predates it, but the server main reads and
  writes `joint->slider_min`; the spec declares the default −180 for a
  rotator and −1000 for an actuator. -/
  slider_min : ℚ
  /-- Modelled from the spec: the `slider_max` field of a joint node
  (default 180 for a rotator, 1000 for an actuator). -/
  slider_max : ℚ
  model : ℕ
  global_pose : Pose
deriving DecidableEq

mutual
/-- `webkin::KinematicNode`: scalar data plus the ordered child list. -/
inductive KNode where
  | mk (data : NodeData) (children : KNodeList)
deriving DecidableEq

/-- `std::vector<std::unique_ptr<KinematicNode>>`. -/
inductive KNodeList where
  | nil
  | cons (head : KNode) (tail : KNodeList)
deriving DecidableEq
end

def KNode.data : KNode → NodeData
  | .mk d _ => d

def KNode.children : KNode → KNodeList
  | .mk _ cs => cs

/-- The joint test of `KinematicNode::get_all_joints`:
`type == "rotator" || type == "actuator"`. -/
def NodeData.isJoint (d : NodeData) : Prop :=
  d.type = "rotator" ∨ d.type = "actuator"

instance (d : NodeData) : Decidable d.isJoint := by
  unfold NodeData.isJoint
  infer_instance

/-- The effective coordinate of `KinematicNode::get_joint_transform`:
`effective_coord = (coord + axis_offset) * axis_scale`. -/
def NodeData.effective_coord (d : NodeData) : ℚ :=
  (d.coord + d.axis_offset) * d.axis_scale

/-- `KinematicNode::get_joint_transform`: a rotator contributes
`Pose(Vec3(), from_axis_angle(axis, effective_coord))`, an actuator
`Pose(axis * effective_coord, Quat())`, every other type tag `Pose()`. -/
def NodeData.get_joint_transform (tm : Trig) (d : NodeData) : Pose :=
  if d.type = "rotator" then
    ⟨Vec3.zero, Quat.from_axis_angle tm d.axis d.effective_coord⟩
  else if d.type = "actuator" then
    ⟨d.axis.smul d.effective_coord, Quat.identity⟩
  else
    Pose.identity

mutual
/-- `KinematicNode::compute_global_poses`: writes
`global_pose = parent_pose * local_pose * get_joint_transform()` and recurses
into the children with the node's own freshly computed global pose. -/
def KNode.compute_global_poses (tm : Trig) (parent_pose : Pose) : KNode → KNode
  | .mk d cs =>
    let g := (parent_pose.mul d.local_pose).mul (d.get_joint_transform tm)
    .mk { d with global_pose := g } (KNodeList.compute_global_poses tm g cs)

def KNodeList.compute_global_poses (tm : Trig) (parent_pose : Pose) :
    KNodeList → KNodeList
  | .nil => .nil
  | .cons c rest =>
    .cons (c.compute_global_poses tm parent_pose)
      (rest.compute_global_poses tm parent_pose)
end

mutual
/-- `KinematicNode::get_scene_data` as the ordered list of
`(name, global_pose, model)` entries, own entry first, children appended in
order. -/
def KNode.get_scene_data : KNode → List (String × Pose × ℕ)
  | .mk d cs => (d.name, d.global_pose, d.model) :: cs.get_scene_data

def KNodeList.get_scene_data : KNodeList → List (String × Pose × ℕ)
  | .nil => []
  | .cons c rest => c.get_scene_data ++ rest.get_scene_data
end

mutual
/-- The node designated by the `KinematicTree::joints` map entry for `p`:
the map is built by a preorder `get_all_joints` walk with
`joints[j->name] = j` overwriting, so the LAST joint named `p` in traversal
order wins.  `none` exactly when `joints.find(p) == joints.end()`. -/
def KNode.lookupJoint (p : String) : KNode → Option NodeData
  | .mk d cs =>
    match KNodeList.lookupJoint p cs with
    | some r => some r
    | none => if d.isJoint ∧ d.name = p then some d else none

def KNodeList.lookupJoint (p : String) : KNodeList → Option NodeData
  | .nil => none
  | .cons c rest =>
    match KNodeList.lookupJoint p rest with
    | some r => some r
    | none => KNode.lookupJoint p c
end

mutual
/-- Mutation through the `joints` map pointer (`joints[p]->… = …`): apply `f`
to the node the map entry designates (the last joint named `p` in traversal
order); the Bool records whether the subtree contains such a joint. -/
def KNode.updateJoint (p : String) (f : NodeData → NodeData) :
    KNode → KNode × Bool
  | .mk d cs =>
    let r := KNodeList.updateJoint p f cs
    if r.2 then (.mk d r.1, true)
    else if d.isJoint ∧ d.name = p then (.mk (f d) cs, true)
    else (.mk d cs, false)

def KNodeList.updateJoint (p : String) (f : NodeData → NodeData) :
    KNodeList → KNodeList × Bool
  | .nil => (.nil, false)
  | .cons c rest =>
    let r := KNodeList.updateJoint p f rest
    if r.2 then (.cons c r.1, true)
    else
      let rc := KNode.updateJoint p f c
      (.cons rc.1 rest, rc.2)
end

/-- `KinematicNode::set_coord`. -/
def NodeData.set_coord (v : ℚ) (d : NodeData) : NodeData := { d with coord := v }

/-- `webkin::KinematicTree`: the owning root pointer (null before the first
load).  The `joints` map is derived (`lookupJoint` / `updateJoint`). -/
structure KinematicTree where
  root : Option KNode

/-- `KinematicTree::update`: forward pass from the root with the
default-constructed parent pose `Pose()`. -/
def KinematicTree.update (tm : Trig) (t : KinematicTree) : KinematicTree :=
  ⟨t.root.map (KNode.compute_global_poses tm Pose.identity)⟩

/-- `KinematicTree::set_joint_coords`: for each entry of the incoming map,
`joints.find(name)`; found entries get `set_coord(value)`, unknown names are
skipped.  The incoming `std::map` is modelled as a key-value list. -/
def KinematicTree.set_joint_coords (t : KinematicTree)
    (coords : List (String × ℚ)) : KinematicTree :=
  match t.root with
  | none => t
  | some r =>
    ⟨some (coords.foldl
      (fun acc nv => (acc.updateJoint nv.1 (NodeData.set_coord nv.2)).1) r)⟩

/-- `KinematicTree::joints.find(p)` through the root pointer. -/
def KinematicTree.lookupJoint (t : KinematicTree) (p : String) :
    Option NodeData :=
  match t.root with
  | none => none
  | some r => r.lookupJoint p

/-- Write through the `joints` map pointer of the tree. -/
def KinematicTree.updateJoint (t : KinematicTree) (p : String)
    (f : NodeData → NodeData) : KinematicTree :=
  match t.root with
  | none => t
  | some r => ⟨some (r.updateJoint p f).1⟩

/-- `KinematicTree::get_scene_data` (empty dictionary without a root). -/
def KinematicTree.get_scene_data (t : KinematicTree) :
    List (String × Pose × ℕ) :=
  match t.root with
  | none => []
  | some r => r.get_scene_data

/-! ## Tree documents and loading -/

/-- The `pose` sub-object of a tree-document node.  A component is `some l`
when the corresponding key holds a JSON list of numbers, `none` when it is
absent (`is_nil`) or not a list; both cases make the C++ `from_trent`
readers fall back to their defaults. -/
structure DocPose where
  position : Option (List ℚ)
  orientation : Option (List ℚ)
deriving DecidableEq

/-- The scalar fields of one node of a tree document (`nos::trent` dict).
`none` models an absent (`is_nil`) or non-conforming value, for which the
`as_…_default` readers of the source fall back to their defaults. -/
structure DocData where
  name : Option String
  type : Option String
  pose : Option DocPose
  axis : Option (List ℚ)
  axis_offset : Option ℚ
  axis_scale : Option ℚ
  slider_min : Option ℚ
  slider_max : Option ℚ
  model : ℕ
deriving DecidableEq

mutual
/-- A recursive tree-document node.  `children = none` models an absent or
non-list `children` value (`children_data.is_list()` fails). -/
inductive DocNode where
  | mk (data : DocData) (children : Option DocNodeList)

inductive DocNodeList where
  | nil
  | cons (head : DocNode) (tail : DocNodeList)
end

def DocNode.data : DocNode → DocData
  | .mk d _ => d

/-- `Vec3::from_trent`: not a list, or fewer than 3 entries, yields `Vec3()`;
otherwise the first three entries. -/
def Vec3.from_trent : Option (List ℚ) → Vec3
  | none => Vec3.zero
  | some l => if l.length < 3 then Vec3.zero else ⟨l.getD 0 0, l.getD 1 0, l.getD 2 0⟩

/-- `Quat::from_trent`: not a list, or fewer than 4 entries, yields `Quat()`
(the identity `(0,0,0,1)`); otherwise the first four entries, verbatim. -/
def Quat.from_trent : Option (List ℚ) → Quat
  | none => Quat.identity
  | some l =>
    if l.length < 4 then Quat.identity
    else ⟨l.getD 0 0, l.getD 1 0, l.getD 2 0, l.getD 3 1⟩

mutual
/-- `KinematicNode::load` on a fresh (default-constructed) node:
`name = as_string_default("unnamed")`, `type = as_string_default("transform")`,
`local_pose` from the `pose` dict when present, `axis` overwritten only when
the key is present (otherwise the member default `(0,0,1)`), `axis_offset` /
`axis_scale` overwritten only when present, `model` passed through, children
loaded in order.  `coord` and `global_pose` keep their member defaults.
The `slider_min`/`slider_max` initialisation is modelled from the spec
(declared value, else −180/180 for a rotator and −1000/1000 for an
actuator), matching `find_original_axis_params` in the server main. -/
def DocNode.load : DocNode → KNode
  | .mk dd cs =>
    let ty := dd.type.getD "transform"
    .mk
      { name := dd.name.getD "unnamed"
        type := ty
        local_pose :=
          match dd.pose with
          | none => Pose.identity
          | some p => ⟨Vec3.from_trent p.position, Quat.from_trent p.orientation⟩
        axis :=
          match dd.axis with
          | none => ⟨0, 0, 1⟩
          | some l => Vec3.from_trent (some l)
        axis_offset := dd.axis_offset.getD 0
        axis_scale := dd.axis_scale.getD 1
        coord := 0
        slider_min := dd.slider_min.getD (if ty = "actuator" then -1000 else -180)
        slider_max := dd.slider_max.getD (if ty = "actuator" then 1000 else 180)
        model := dd.model
        global_pose := Pose.identity }
      (match cs with
       | none => .nil
       | some l => DocNodeList.load l)

def DocNodeList.load : DocNodeList → KNodeList
  | .nil => .nil
  | .cons c rest => .cons c.load rest.load
end

/-- `KinematicTree::load`: replace the root with the loaded document, rebuild
the joints map (derived here), then `update()`. -/
def KinematicTree.load (tm : Trig) (doc : DocNode) : KinematicTree :=
  KinematicTree.update tm ⟨some doc.load⟩

/-- The result dict of `find_original_axis_params` (server main); when the
name is found the dict always carries all four keys, as numbers. -/
structure AxisParams where
  axis_offset : ℚ
  axis_scale : ℚ
  slider_min : ℚ
  slider_max : ℚ
deriving DecidableEq

mutual
/-- `find_original_axis_params(node, joint_name)`: if this node's
`name` (string default `""`) equals `joint_name`, return its declared
parameters with defaults 0, 1 and the type-dependent slider bounds
(−1000/1000 for an actuator, −180/180 otherwise); else search the children
in order, first hit wins; else the nil trent (`none`). -/
def DocNode.find_original_axis_params (joint_name : String) :
    DocNode → Option AxisParams
  | .mk dd cs =>
    if dd.name.getD "" = joint_name then
      let jtype := dd.type.getD "transform"
      let default_min : ℚ := if jtype = "actuator" then -1000 else -180
      let default_max : ℚ := if jtype = "actuator" then 1000 else 180
      some ⟨dd.axis_offset.getD 0, dd.axis_scale.getD 1,
            dd.slider_min.getD default_min, dd.slider_max.getD default_max⟩
    else
      match cs with
      | none => none
      | some l => DocNodeList.find_original_axis_params joint_name l

def DocNodeList.find_original_axis_params (joint_name : String) :
    DocNodeList → Option AxisParams
  | .nil => none
  | .cons c rest =>
    match DocNode.find_original_axis_params joint_name c with
    | some r => some r
    | none => DocNodeList.find_original_axis_params joint_name rest
end

/-! ## Calibration overrides and the REST handlers (server main) -/

/-- One value of the `g_axis_overrides` map: the inner
`std::map<std::string,double>` restricted to the four keys the server ever
reads or writes; `none` means the key is absent. -/
structure OverrideEntry where
  axis_offset : Option ℚ
  axis_scale : Option ℚ
  slider_min : Option ℚ
  slider_max : Option ℚ
deriving DecidableEq

/-- A fresh inner map, as created by `g_axis_overrides[name]`. -/
def OverrideEntry.empty : OverrideEntry := ⟨none, none, none, none⟩

/-- `g_axis_overrides` as a finite-map abstraction. -/
abbrev Overrides := String → Option OverrideEntry

/-- The authoritative server state the scene lock guards, restricted to what
the calibration endpoints touch: `g_tree`, `g_tree_data_json`,
`g_axis_overrides`. -/
structure ServerState where
  tree : KinematicTree
  tree_doc : Option DocNode
  overrides : Overrides

/-- Result of one REST handler call: HTTP status, the state after the call,
whether `save_axis_overrides()` ran, and whether `broadcast_scene_update()`
was invoked. -/
structure HandlerOut where
  status : ℕ
  state : ServerState
  saved : Bool
  broadcast : Bool

/-- The `POST /api/offset/set_zero` handler.  `joint_name` is
`body["joint_name"].as_string_default("")`, so a missing or non-string field
arrives as `""`.  400 for an empty name; 404 when `joints.find` fails;
otherwise `new_offset = -coord`, written into the override map entry and the
joint, then save, `g_tree.update()`, broadcast, 200. -/
def handle_set_zero (tm : Trig) (st : ServerState) (joint_name : String) :
    HandlerOut :=
  if joint_name = "" then ⟨400, st, false, false⟩
  else
    match st.tree.lookupJoint joint_name with
    | none => ⟨404, st, false, false⟩
    | some jd =>
      let new_offset := -jd.coord
      let ov' : Overrides := fun n =>
        if n = joint_name then
          some { (st.overrides joint_name).getD OverrideEntry.empty with
                 axis_offset := some new_offset }
        else st.overrides n
      let tree' :=
        (st.tree.updateJoint joint_name
          (fun d => { d with axis_offset := new_offset })).update tm
      ⟨200, ⟨tree', st.tree_doc, ov'⟩, true, true⟩

/-- Body of `POST /api/axis/override`: `joint_name` after
`as_string_default("")`, and each numeric field `some v` exactly when
`body[key].is_numer()`. -/
structure OverrideBody where
  joint_name : String
  axis_offset : Option ℚ
  axis_scale : Option ℚ
  slider_min : Option ℚ
  slider_max : Option ℚ

/-- Whether any of the four numeric fields is present: only then does the
handler touch `g_axis_overrides[joint_name]` (each present field runs
`g_axis_overrides[joint_name][key] = val`). -/
def OverrideBody.any_field (b : OverrideBody) : Bool :=
  b.axis_offset.isSome || b.axis_scale.isSome || b.slider_min.isSome ||
    b.slider_max.isSome

/-- The merge of the present body fields into an inner override map. -/
def OverrideBody.mergeEntry (b : OverrideBody) (e : OverrideEntry) :
    OverrideEntry :=
  ⟨match b.axis_offset with | some v => some v | none => e.axis_offset,
   match b.axis_scale with | some v => some v | none => e.axis_scale,
   match b.slider_min with | some v => some v | none => e.slider_min,
   match b.slider_max with | some v => some v | none => e.slider_max⟩

/-- The writes of the present body fields to the joint node. -/
def OverrideBody.apply_to_joint (b : OverrideBody) (d : NodeData) : NodeData :=
  { d with
    axis_offset := b.axis_offset.getD d.axis_offset
    axis_scale := b.axis_scale.getD d.axis_scale
    slider_min := b.slider_min.getD d.slider_min
    slider_max := b.slider_max.getD d.slider_max }

/-- The `POST /api/axis/override` handler: 400 for an empty `joint_name`,
404 when `joints.find` fails, otherwise each numeric field present in the
body is written into the override map entry and the joint, then save,
`g_tree.update()`, broadcast, 200. -/
def handle_axis_override (tm : Trig) (st : ServerState) (b : OverrideBody) :
    HandlerOut :=
  if b.joint_name = "" then ⟨400, st, false, false⟩
  else
    match st.tree.lookupJoint b.joint_name with
    | none => ⟨404, st, false, false⟩
    | some _ =>
      let ov' : Overrides :=
        if b.any_field then
          fun n =>
            if n = b.joint_name then
              some (b.mergeEntry ((st.overrides b.joint_name).getD .empty))
            else st.overrides n
        else st.overrides
      let tree' :=
        (st.tree.updateJoint b.joint_name b.apply_to_joint).update tm
      ⟨200, ⟨tree', st.tree_doc, ov'⟩, true, true⟩

/-- The `DELETE /api/axis/overrides/<string>` handler: when an override entry
exists for the name it is erased and saved; then, when a tree document is
loaded, the joint exists and `find_original_axis_params` finds the name in
the document, the joint's four calibration fields are restored from the
document (the handler's own `as_numer_default` fallbacks never fire, because
the found dict always carries all four keys), followed by `g_tree.update()`
and a broadcast.  Always 200. -/
def handle_delete_override (tm : Trig) (st : ServerState)
    (joint_name : String) : HandlerOut :=
  match st.overrides joint_name with
  | none => ⟨200, st, false, false⟩
  | some _ =>
    let ov' : Overrides := fun n =>
      if n = joint_name then none else st.overrides n
    match st.tree_doc with
    | none => ⟨200, ⟨st.tree, st.tree_doc, ov'⟩, true, false⟩
    | some doc =>
      match st.tree.lookupJoint joint_name with
      | none => ⟨200, ⟨st.tree, st.tree_doc, ov'⟩, true, false⟩
      | some _ =>
        match doc.find_original_axis_params joint_name with
        | none => ⟨200, ⟨st.tree, st.tree_doc, ov'⟩, true, false⟩
        | some orig =>
          let tree' :=
            (st.tree.updateJoint joint_name (fun d =>
              { d with
                axis_offset := orig.axis_offset
                axis_scale := orig.axis_scale
                slider_min := orig.slider_min
                slider_max := orig.slider_max })).update tm
          ⟨200, ⟨tree', st.tree_doc, ov'⟩, true, true⟩

/-! ## Auxiliary projections -/

/-- Reset the forward-pass output slot; everything the forward pass does not
touch is visible through this projection. -/
def NodeData.eraseGlobal (d : NodeData) : NodeData :=
  { d with global_pose := Pose.identity }

mutual
/-- Reset every `coord`; everything `set_joint_coords` does not touch is
visible through this projection. -/
def KNode.zeroCoords : KNode → KNode
  | .mk d cs => .mk { d with coord := 0 } cs.zeroCoords

def KNodeList.zeroCoords : KNodeList → KNodeList
  | .nil => .nil
  | .cons c rest => .cons c.zeroCoords rest.zeroCoords
end

def KinematicTree.zeroCoords (t : KinematicTree) : KinematicTree :=
  ⟨t.root.map KNode.zeroCoords⟩

mutual
/-- The spec's global-pose invariant, read off a tree whose `global_pose`
slots have been written: every node's stored global pose equals
`parent_global * local * joint`, where the root case is instantiated with
the identity parent pose. -/
def KNode.globalInvariant (tm : Trig) (parent_pose : Pose) : KNode → Prop
  | .mk d cs =>
    d.global_pose =
        (parent_pose.mul d.local_pose).mul (d.get_joint_transform tm) ∧
      KNodeList.globalInvariant tm d.global_pose cs

def KNodeList.globalInvariant (tm : Trig) (parent_pose : Pose) :
    KNodeList → Prop
  | .nil => True
  | .cons c rest =>
    KNode.globalInvariant tm parent_pose c ∧
      KNodeList.globalInvariant tm parent_pose rest
end

/-- Axis-angle construction exactly as the spec words it:
`(axis.x·sin(θ/2), axis.y·sin(θ/2), axis.z·sin(θ/2), cos(θ/2))`, the axis
not renormalized. -/
def axisAngle_spec (tm : Trig) (axis : Vec3) (θ : ℚ) : Quat :=
  ⟨axis.x * tm.sinFn (θ / 2), axis.y * tm.sinFn (θ / 2),
   axis.z * tm.sinFn (θ / 2), tm.cosFn (θ / 2)⟩

/-- The joint transform exactly as the spec words it, from
`θ_eff = (coord + axis_offset) · axis_scale`: a rotator yields
`Pose(0, axisAngle(axis, θ_eff))`, an actuator `Pose(axis · θ_eff, identity)`
and a transform node the identity pose (the final branch also covers type
tags outside the spec's three, which the equivalence claim does not
constrain). -/
def joint_transform_spec (tm : Trig) (d : NodeData) : Pose :=
  let θeff := (d.coord + d.axis_offset) * d.axis_scale
  if d.type = "rotator" then ⟨Vec3.zero, axisAngle_spec tm d.axis θeff⟩
  else if d.type = "actuator" then ⟨d.axis.smul θeff, Quat.identity⟩
  else Pose.identity

/-! ## Concrete fixtures used by the witnesses and counterexamples -/

/-- A concrete interpretation of the trigonometric oracle. -/
def trigW : Trig := ⟨fun _ => 0, fun _ => 1⟩

/-- A concrete rotator joint. -/
def dataW : NodeData :=
  { name := "j1", type := "rotator", local_pose := Pose.identity,
    axis := ⟨0, 0, 1⟩, axis_offset := 0, axis_scale := 1, coord := 2,
    slider_min := -180, slider_max := 180, model := 0,
    global_pose := Pose.identity }

/-- A concrete non-joint node. -/
def dataTW : NodeData := { dataW with name := "base", type := "transform" }

/-- A concrete one-node tree whose root is the joint `"j1"`. -/
def nodeW : KNode := .mk dataW .nil

/-- Fixture for C8: a document whose root is a transform with one rotator
child `"j1"` declaring only `axis_scale`. -/
def docW : DocNode :=
  .mk ⟨some "base", some "transform", none, none, none, none, none, none, 0⟩
    (some (.cons
      (.mk ⟨some "j1", some "rotator", none, none, none, some 4, none, none, 1⟩
        none)
      .nil))

/-- Fixture for C4: a document with every field missing. -/
def docEmptyW : DocNode :=
  .mk ⟨none, none, none, none, none, none, none, none, 0⟩ none

/-- Fixture for C4: a well-formed document in which two distinct rotator
nodes share the name `"j"` (distinguishable by their `axis_offset`). -/
def docDupW : DocNode :=
  .mk ⟨some "root", some "transform", none, none, none, none, none, none, 0⟩
    (some (.cons
      (.mk ⟨some "j", some "rotator", none, none, some 1, none, none, none, 1⟩
        none)
      (.cons
        (.mk ⟨some "j", some "rotator", none, none, some 5, none, none, none, 2⟩
          none)
        .nil)))

/-- Fixture for C10: a document carrying the non-unit orientation
`(0,0,0,2)`. -/
def docUnnormW : DocNode :=
  .mk ⟨some "r", some "transform",
    some ⟨some [0, 0, 0], some [0, 0, 0, 2]⟩,
    none, none, none, none, none, 0⟩ none

/-! ## Simultaneous induction for nodes and node lists -/

/-- Simultaneous induction principle for `KNode` and `KNodeList`. -/
theorem KNode.induction2 {P : KNode → Prop} {Q : KNodeList → Prop}
    (hmk : ∀ d cs, Q cs → P (.mk d cs))
    (hnil : Q .nil)
    (hcons : ∀ c rest, P c → Q rest → Q (.cons c rest)) :
    (∀ n, P n) ∧ (∀ l, Q l) :=
  ⟨fun n => @KNode.rec P Q hmk hnil hcons n,
   fun l => @KNodeList.rec P Q hmk hnil hcons l⟩

/-! ## The joints map: lookup and update coherence -/

/-- The found flag of `updateJoint` agrees with `lookupJoint` (both traverse
for the last joint with the given name). -/
theorem updateJoint_snd (p : String) (f : NodeData → NodeData) :
    (∀ n : KNode, (n.updateJoint p f).2 = (n.lookupJoint p).isSome) ∧
    (∀ l : KNodeList,
      (KNodeList.updateJoint p f l).2 = (KNodeList.lookupJoint p l).isSome) := by
  refine KNode.induction2 ?_ ?_ ?_
  · intro d cs ih
    simp only [KNode.updateJoint, KNode.lookupJoint, ih]
    cases h : KNodeList.lookupJoint p cs with
    | some r => simp [h]
    | none =>
      simp only [h, Option.isSome_none, Bool.false_eq_true, if_false]
      split <;> simp
  · simp [KNodeList.updateJoint, KNodeList.lookupJoint]
  · intro c rest ih1 ih2
    simp only [KNodeList.updateJoint, KNodeList.lookupJoint, ih2]
    cases h : KNodeList.lookupJoint p rest with
    | some r => simp [h]
    | none =>
      simp only [h, Option.isSome_none, Bool.false_eq_true, if_false, ih1]

/-- Writing through the joints-map pointer for `p` is reflected exactly at
the `p` entry of the derived lookup, provided the write keeps name and type
(all the server's writes do). -/
theorem lookupJoint_updateJoint_self (p : String) (f : NodeData → NodeData)
    (hname : ∀ d, (f d).name = d.name) (htype : ∀ d, (f d).type = d.type) :
    (∀ n : KNode, KNode.lookupJoint p (n.updateJoint p f).1 =
      (n.lookupJoint p).map f) ∧
    (∀ l : KNodeList,
      KNodeList.lookupJoint p (KNodeList.updateJoint p f l).1 =
        (KNodeList.lookupJoint p l).map f) := by
  refine KNode.induction2 ?_ ?_ ?_
  · intro d cs ih
    simp only [KNode.updateJoint, (updateJoint_snd p f).2 cs]
    cases h : KNodeList.lookupJoint p cs with
    | some r =>
      simp only [h, Option.isSome_some, if_true, KNode.lookupJoint, ih, h,
        Option.map_some']
    | none =>
      simp only [h, Option.isSome_none, Bool.false_eq_true, if_false]
      split
      · next hcond =>
        simp only [KNode.lookupJoint, h, Option.map_none']
        rw [if_pos]
        · simp only [if_pos hcond, Option.map_some']
        · constructor
          · show (f d).type = "rotator" ∨ (f d).type = "actuator"
            rw [htype]
            exact hcond.1
          · rw [hname]
            exact hcond.2
      · next hcond =>
        simp only [KNode.lookupJoint, h, Option.map_none', if_neg hcond]
  · simp [KNodeList.updateJoint, KNodeList.lookupJoint]
  · intro c rest ih1 ih2
    simp only [KNodeList.updateJoint, (updateJoint_snd p f).2 rest]
    cases h : KNodeList.lookupJoint p rest with
    | some r =>
      simp only [h, Option.isSome_some, if_true, KNodeList.lookupJoint, ih2, h,
        Option.map_some']
    | none =>
      simp only [h, Option.isSome_none, Bool.false_eq_true, if_false,
        KNodeList.lookupJoint, h, ih1]

/-- Writing through the joints-map pointer for `p` leaves every other lookup
entry unchanged, provided the write keeps name and type. -/
theorem lookupJoint_updateJoint_other (p q : String)
    (f : NodeData → NodeData)
    (hname : ∀ d, (f d).name = d.name) (htype : ∀ d, (f d).type = d.type)
    (hq : q ≠ p) :
    (∀ n : KNode, KNode.lookupJoint q (n.updateJoint p f).1 =
      n.lookupJoint q) ∧
    (∀ l : KNodeList,
      KNodeList.lookupJoint q (KNodeList.updateJoint p f l).1 =
        KNodeList.lookupJoint q l) := by
  refine KNode.induction2 ?_ ?_ ?_
  · intro d cs ih
    simp only [KNode.updateJoint, (updateJoint_snd p f).2 cs]
    cases h : KNodeList.lookupJoint p cs with
    | some r => simp only [h, Option.isSome_some, if_true, KNode.lookupJoint, ih]
    | none =>
      simp only [h, Option.isSome_none, Bool.false_eq_true, if_false]
      split
      · next hcond =>
        have h1 : ¬ ((f d).isJoint ∧ (f d).name = q) := by
          intro hc
          rw [hname] at hc
          exact hq (hc.2.symm.trans hcond.2)
        have h2 : ¬ (d.isJoint ∧ d.name = q) := by
          intro hc
          exact hq (hc.2.symm.trans hcond.2)
        simp only [KNode.lookupJoint]
        cases hq2 : KNodeList.lookupJoint q cs with
        | some r => rfl
        | none => rw [if_neg h1, if_neg h2]
      · next hcond => rfl
  · simp [KNodeList.updateJoint, KNodeList.lookupJoint]
  · intro c rest ih1 ih2
    simp only [KNodeList.updateJoint, (updateJoint_snd p f).2 rest]
    cases h : KNodeList.lookupJoint p rest with
    | some r =>
      simp only [h, Option.isSome_some, if_true, KNodeList.lookupJoint, ih2]
    | none =>
      simp only [h, Option.isSome_none, Bool.false_eq_true, if_false,
        KNodeList.lookupJoint, ih1, ih2]

/-- The forward pass only writes `global_pose`: through the global-erasing
projection, the joints map is untouched. -/
theorem lookupJoint_compute (tm : Trig) (p : String) :
    (∀ n : KNode, ∀ pp : Pose,
      (KNode.lookupJoint p (n.compute_global_poses tm pp)).map
          NodeData.eraseGlobal =
        (n.lookupJoint p).map NodeData.eraseGlobal) ∧
    (∀ l : KNodeList, ∀ pp : Pose,
      (KNodeList.lookupJoint p (KNodeList.compute_global_poses tm pp l)).map
          NodeData.eraseGlobal =
        (KNodeList.lookupJoint p l).map NodeData.eraseGlobal) := by
  refine KNode.induction2 ?_ ?_ ?_
  · intro d cs ih pp
    simp only [KNode.compute_global_poses, KNode.lookupJoint]
    have h2 := ih ((pp.mul d.local_pose).mul (d.get_joint_transform tm))
    cases h : KNodeList.lookupJoint p cs with
    | some r =>
      rw [h, Option.map_some'] at h2
      cases h3 : KNodeList.lookupJoint p
          (KNodeList.compute_global_poses tm
            ((pp.mul d.local_pose).mul (d.get_joint_transform tm)) cs) with
      | some r2 =>
        rw [h3, Option.map_some'] at h2
        simp only [h2, Option.map_some']
      | none => rw [h3, Option.map_none'] at h2; exact absurd h2 (by simp)
    | none =>
      rw [h, Option.map_none'] at h2
      cases h3 : KNodeList.lookupJoint p
          (KNodeList.compute_global_poses tm
            ((pp.mul d.local_pose).mul (d.get_joint_transform tm)) cs) with
      | some r2 => rw [h3, Option.map_some'] at h2; exact absurd h2 (by simp)
      | none =>
        by_cases hcond : d.isJoint ∧ d.name = p
        · rw [if_pos hcond, if_pos ⟨hcond.1, hcond.2⟩]
          simp [NodeData.eraseGlobal]
        · rw [if_neg hcond, if_neg (fun hc => hcond ⟨hc.1, hc.2⟩)]
  · intro pp
    simp [KNodeList.compute_global_poses, KNodeList.lookupJoint]
  · intro c rest ih1 ih2 pp
    simp only [KNodeList.compute_global_poses, KNodeList.lookupJoint]
    have h2 := ih2 pp
    cases h : KNodeList.lookupJoint p rest with
    | some r =>
      rw [h, Option.map_some'] at h2
      cases h3 : KNodeList.lookupJoint p
          (KNodeList.compute_global_poses tm pp rest) with
      | some r2 =>
        rw [h3, Option.map_some'] at h2
        simp only [h2, Option.map_some']
      | none => rw [h3, Option.map_none'] at h2; exact absurd h2 (by simp)
    | none =>
      rw [h, Option.map_none'] at h2
      cases h3 : KNodeList.lookupJoint p
          (KNodeList.compute_global_poses tm pp rest) with
      | some r2 => rw [h3, Option.map_some'] at h2; exact absurd h2 (by simp)
      | none => exact ih1 pp

/-! ## The forward-kinematics composition invariant -/

/-- The forward pass establishes the global-pose invariant. -/
theorem compute_globalInvariant (tm : Trig) :
    (∀ n : KNode, ∀ pp : Pose,
      KNode.globalInvariant tm pp (n.compute_global_poses tm pp)) ∧
    (∀ l : KNodeList, ∀ pp : Pose,
      KNodeList.globalInvariant tm pp
        (KNodeList.compute_global_poses tm pp l)) := by
  refine KNode.induction2 ?_ ?_ ?_
  · intro d cs ih pp
    exact ⟨rfl, ih ((pp.mul d.local_pose).mul (d.get_joint_transform tm))⟩
  · intro pp
    trivial
  · intro c rest ih1 ih2 pp
    exact ⟨ih1 pp, ih2 pp⟩

/-! ## Scene equality under equivalent joint writes -/

/-- Two writes through the joints-map pointer that agree on everything the
forward pass and the scene serializer read (local pose, joint transform,
name, model) produce the same scene. -/
theorem scene_congr_update (tm : Trig) (p : String)
    (f g : NodeData → NodeData)
    (hlocal : ∀ d, (f d).local_pose = (g d).local_pose)
    (hname : ∀ d, (f d).name = (g d).name)
    (hmodel : ∀ d, (f d).model = (g d).model)
    (hjt : ∀ d, (f d).get_joint_transform tm = (g d).get_joint_transform tm) :
    (∀ n : KNode, ∀ pp : Pose,
      (KNode.compute_global_poses tm pp (n.updateJoint p f).1).get_scene_data =
        (KNode.compute_global_poses tm pp (n.updateJoint p g).1).get_scene_data) ∧
    (∀ l : KNodeList, ∀ pp : Pose,
      (KNodeList.compute_global_poses tm pp
          (KNodeList.updateJoint p f l).1).get_scene_data =
        (KNodeList.compute_global_poses tm pp
          (KNodeList.updateJoint p g l).1).get_scene_data) := by
  refine KNode.induction2 ?_ ?_ ?_
  · intro d cs ih pp
    simp only [KNode.updateJoint, (updateJoint_snd p f).2 cs,
      (updateJoint_snd p g).2 cs]
    cases h : KNodeList.lookupJoint p cs with
    | some r =>
      simp only [h, Option.isSome_some, if_true, KNode.compute_global_poses,
        KNode.get_scene_data]
      rw [ih ((pp.mul d.local_pose).mul (d.get_joint_transform tm))]
    | none =>
      simp only [h, Option.isSome_none, Bool.false_eq_true, if_false]
      split
      · next hcond =>
        simp only [KNode.compute_global_poses, KNode.get_scene_data]
        have hg : (pp.mul (f d).local_pose).mul ((f d).get_joint_transform tm) =
            (pp.mul (g d).local_pose).mul ((g d).get_joint_transform tm) := by
          rw [hlocal, hjt]
        rw [hg, hname, hmodel]
      · next hcond => rfl
  · intro pp
    rfl
  · intro c rest ih1 ih2 pp
    simp only [KNodeList.updateJoint, (updateJoint_snd p f).2 rest,
      (updateJoint_snd p g).2 rest]
    cases h : KNodeList.lookupJoint p rest with
    | some r =>
      simp only [h, Option.isSome_some, if_true, KNodeList.compute_global_poses,
        KNodeList.get_scene_data]
      rw [ih2 pp]
    | none =>
      simp only [h, Option.isSome_none, Bool.false_eq_true, if_false,
        KNodeList.compute_global_poses, KNodeList.get_scene_data]
      rw [ih1 pp]

/-! ## Frame lemmas for `set_joint_coords` -/

/-- A write that touches only `coord` is invisible through the coord-erasing
projection. -/
theorem zeroCoords_updateJoint (p : String) (f : NodeData → NodeData)
    (hf : ∀ d, ({ f d with coord := 0 } : NodeData) = { d with coord := 0 }) :
    (∀ n : KNode, (n.updateJoint p f).1.zeroCoords = n.zeroCoords) ∧
    (∀ l : KNodeList,
      (KNodeList.updateJoint p f l).1.zeroCoords = l.zeroCoords) := by
  refine KNode.induction2 ?_ ?_ ?_
  · intro d cs ih
    simp only [KNode.updateJoint]
    cases hb : (KNodeList.updateJoint p f cs).2 with
    | true => simp only [if_true, KNode.zeroCoords, ih]
    | false =>
      simp only [Bool.false_eq_true, if_false]
      split
      · next hcond => simp only [KNode.zeroCoords, hf]
      · next hcond => rfl
  · rfl
  · intro c rest ih1 ih2
    simp only [KNodeList.updateJoint]
    cases hb : (KNodeList.updateJoint p f rest).2 with
    | true => simp only [if_true, KNodeList.zeroCoords, ih2]
    | false => simp only [Bool.false_eq_true, if_false, KNodeList.zeroCoords, ih1]

theorem lookup_eq_none_of_not_mem_keys (J : String)
    (coords : List (String × ℚ)) (h : J ∉ coords.map Prod.fst) :
    List.lookup J coords = none := by
  induction coords with
  | nil => rfl
  | cons x rest ih =>
    obtain ⟨k, v⟩ := x
    simp only [List.map_cons, List.mem_cons] at h
    push_neg at h
    have hb : (J == k) = false := by
      simp only [beq_eq_false_iff_ne]
      exact h.1
    simp only [List.lookup, hb]
    exact ih h.2

/-- The coordinate fold of `set_joint_coords` at the node level: each joints
map entry gets the value its name carries in the update map (unique keys, as
in a `std::map`), everything else is untouched. -/
theorem lookup_foldl_setCoord (coords : List (String × ℚ))
    (hnodup : (coords.map Prod.fst).Nodup) (r : KNode) (J : String) :
    KNode.lookupJoint J
        (coords.foldl
          (fun acc nv => (acc.updateJoint nv.1 (NodeData.set_coord nv.2)).1) r) =
      (r.lookupJoint J).map
        (fun d => { d with coord := (List.lookup J coords).getD d.coord }) := by
  induction coords generalizing r with
  | nil =>
    simp only [List.foldl_nil, List.lookup, Option.getD_none]
    cases h : r.lookupJoint J with
    | none => rfl
    | some d => rfl
  | cons x rest ih =>
    obtain ⟨k, v⟩ := x
    have hx : k ∉ rest.map Prod.fst := by
      simp only [List.map_cons, List.nodup_cons] at hnodup
      exact hnodup.1
    have hrest : (rest.map Prod.fst).Nodup := by
      simp only [List.map_cons, List.nodup_cons] at hnodup
      exact hnodup.2
    simp only [List.foldl_cons]
    rw [ih hrest]
    by_cases hJ : J = k
    · subst hJ
      rw [(lookupJoint_updateJoint_self J (NodeData.set_coord v)
        (fun d => rfl) (fun d => rfl)).1 r]
      simp only [lookup_eq_none_of_not_mem_keys J rest hx, Option.getD_none,
        List.lookup, beq_self_eq_true, Option.getD_some]
      cases h : r.lookupJoint J with
      | none => rfl
      | some d => rfl
    · rw [(lookupJoint_updateJoint_other k J (NodeData.set_coord v)
        (fun d => rfl) (fun d => rfl) hJ).1 r]
      have hb : (J == k) = false := by
        simp only [beq_eq_false_iff_ne]
        exact hJ
      simp only [List.lookup, hb]

/-- Tree-level composite of the handler write pattern
`joints[p]->… = …; g_tree.update()`: any projection that ignores
`global_pose` sees exactly the written fields at the `p` entry. -/
theorem lookupJoint_write_update {α : Type} (tm : Trig) (t : KinematicTree)
    (p : String) (f : NodeData → NodeData)
    (hname : ∀ d, (f d).name = d.name) (htype : ∀ d, (f d).type = d.type)
    (g : NodeData → α) (hg : ∀ d, g d.eraseGlobal = g d) :
    (((t.updateJoint p f).update tm).lookupJoint p).map g =
      (t.lookupJoint p).map (fun d => g (f d)) := by
  cases ht : t.root with
  | none =>
    simp [KinematicTree.updateJoint, ht, KinematicTree.update,
      KinematicTree.lookupJoint]
  | some r =>
    simp only [KinematicTree.updateJoint, ht, KinematicTree.update,
      Option.map_some', KinematicTree.lookupJoint]
    have h1 := (lookupJoint_compute tm p).1 ((r.updateJoint p f).1) Pose.identity
    have h2 := (lookupJoint_updateJoint_self p f hname htype).1 r
    have h3 : ∀ A B : Option NodeData,
        A.map NodeData.eraseGlobal = B.map NodeData.eraseGlobal →
          A.map g = B.map g := by
      intro A B hAB
      cases A with
      | none =>
        cases B with
        | none => rfl
        | some b => simp at hAB
      | some a =>
        cases B with
        | none => simp at hAB
        | some b =>
          simp only [Option.map_some', Option.some_inj] at hAB ⊢
          calc g a = g a.eraseGlobal := (hg a).symm
            _ = g b.eraseGlobal := by rw [hAB]
            _ = g b := hg b
    rw [h3 _ _ h1, h2]
    cases hr : r.lookupJoint p <;> simp

/-! ## Claims -/

/-- C1: after a forward pass (`KinematicTree::update` /
`compute_global_poses`), every node `N` of the resulting tree satisfies
`global(N) = global(parent(N)) · local(N) · joint(N)` (pose composition,
left-associated as in the source), with the identity pose as the root's
effective parent, and the joint transform is the identity pose for non-joint
nodes; the joint transform is applied at the joint node itself and, through
the recursion, inherited by all of its descendants. -/
theorem C1_global_pose_invariant (tm : Trig) (t : KinematicTree) (n : KNode)
    (hroot : (t.update tm).root = some n) :
    KNode.globalInvariant tm Pose.identity n ∧
      ∀ d : NodeData, ¬ d.isJoint →
        d.get_joint_transform tm = Pose.identity := by
  constructor
  · cases ht : t.root with
    | none =>
      rw [KinematicTree.update, ht] at hroot
      exact absurd hroot (by simp)
    | some r =>
      rw [KinematicTree.update, ht] at hroot
      simp only [Option.map_some', Option.some_inj] at hroot
      subst hroot
      exact (compute_globalInvariant tm).1 r Pose.identity
  · intro d hd
    have h1 : ¬ d.type = "rotator" := fun h => hd (Or.inl h)
    have h2 : ¬ d.type = "actuator" := fun h => hd (Or.inr h)
    rw [NodeData.get_joint_transform, if_neg h1, if_neg h2]

theorem C1_global_pose_invariant_witness :
    KNode.globalInvariant trigW Pose.identity
        (nodeW.compute_global_poses trigW Pose.identity) ∧
      dataTW.get_joint_transform trigW = Pose.identity :=
  ⟨(C1_global_pose_invariant trigW ⟨some nodeW⟩
      (nodeW.compute_global_poses trigW Pose.identity) rfl).1,
   (C1_global_pose_invariant trigW ⟨some nodeW⟩
      (nodeW.compute_global_poses trigW Pose.identity) rfl).2 dataTW
      (by decide)⟩

/-- C2: for every node of one of the three declared type tags,
`get_joint_transform` computes exactly the spec's joint transform from the
effective coordinate `θ_eff = (coord + axis_offset) · axis_scale`. -/
theorem C2_joint_transform_spec (tm : Trig) (d : NodeData)
    (h : d.type = "transform" ∨ d.type = "rotator" ∨ d.type = "actuator") :
    d.get_joint_transform tm = joint_transform_spec tm d := by
  rcases h with h | h | h <;>
    simp [NodeData.get_joint_transform, joint_transform_spec,
      Quat.from_axis_angle, axisAngle_spec, NodeData.effective_coord, h]

theorem C2_joint_transform_spec_witness :
    dataW.get_joint_transform trigW = joint_transform_spec trigW dataW :=
  C2_joint_transform_spec trigW dataW (Or.inr (Or.inl (by decide)))

/-- C6: bumping a joint's `axis_offset` by Δ (through the joints-map pointer,
coord untouched) and bumping its `coord` by Δ (offset untouched) produce the
same forward-kinematics scene: the same `(name, global_pose, model)` data for
every node. -/
theorem C6_offset_coord_additivity (tm : Trig) (t : KinematicTree)
    (J : String) (Δ : ℚ) :
    ((t.updateJoint J
        (fun d => { d with axis_offset := d.axis_offset + Δ })).update
          tm).get_scene_data =
      ((t.updateJoint J
        (fun d => { d with coord := d.coord + Δ })).update
          tm).get_scene_data := by
  have hjt : ∀ d : NodeData,
      ({ d with axis_offset := d.axis_offset + Δ} :
          NodeData).get_joint_transform tm =
        ({ d with coord := d.coord + Δ} : NodeData).get_joint_transform tm := by
    intro d
    have he : ({ d with axis_offset := d.axis_offset + Δ} :
        NodeData).effective_coord =
        ({ d with coord := d.coord + Δ} : NodeData).effective_coord := by
      simp only [NodeData.effective_coord]
      ring
    simp only [NodeData.get_joint_transform, he]
  cases ht : t.root with
  | none =>
    simp [KinematicTree.updateJoint, ht, KinematicTree.update,
      KinematicTree.get_scene_data]
  | some r =>
    simp only [KinematicTree.updateJoint, ht, KinematicTree.update,
      Option.map_some', KinematicTree.get_scene_data]
    exact (scene_congr_update tm J
      (fun d => { d with axis_offset := d.axis_offset + Δ })
      (fun d => { d with coord := d.coord + Δ })
      (fun d => rfl) (fun d => rfl) (fun d => rfl) hjt).1 r Pose.identity

theorem zeroCoords_foldl (coords : List (String × ℚ)) (r : KNode) :
    (coords.foldl
        (fun acc nv => (acc.updateJoint nv.1 (NodeData.set_coord nv.2)).1)
        r).zeroCoords = r.zeroCoords := by
  induction coords generalizing r with
  | nil => rfl
  | cons x rest ih =>
    simp only [List.foldl_cons]
    rw [ih]
    exact (zeroCoords_updateJoint x.1 (NodeData.set_coord x.2)
      (fun d => rfl)).1 r

/-- C5: `set_joint_coords` silently ignores names without a joints-map entry
and, for each present name, updates only that joint's `coord` to the mapped
value; through the coord-erasing projection the tree (structure,
`local_pose`, `axis`, offsets, scales, models, every other field) is
unchanged.  The incoming `std::map` is a key-value list with distinct
keys. -/
theorem C5_set_joint_coords (t : KinematicTree) (coords : List (String × ℚ))
    (hnodup : (coords.map Prod.fst).Nodup) :
    (t.set_joint_coords coords).zeroCoords = t.zeroCoords ∧
      ∀ J, (t.set_joint_coords coords).lookupJoint J =
        (t.lookupJoint J).map
          (fun d => { d with coord := (List.lookup J coords).getD d.coord }) := by
  cases ht : t.root with
  | none =>
    constructor
    · simp [KinematicTree.set_joint_coords, ht]
    · intro J
      simp [KinematicTree.set_joint_coords, KinematicTree.lookupJoint, ht]
  | some r =>
    constructor
    · simp only [KinematicTree.set_joint_coords, ht, KinematicTree.zeroCoords,
        Option.map_some']
      rw [zeroCoords_foldl]
    · intro J
      simp only [KinematicTree.set_joint_coords, ht, KinematicTree.lookupJoint]
      exact lookup_foldl_setCoord coords hnodup r J

theorem C5_set_joint_coords_witness :
    ((⟨some nodeW⟩ : KinematicTree).set_joint_coords
        [("j1", 5), ("ghost", 7)]).zeroCoords =
      (⟨some nodeW⟩ : KinematicTree).zeroCoords ∧
    ((⟨some nodeW⟩ : KinematicTree).set_joint_coords
        [("j1", 5), ("ghost", 7)]).lookupJoint "j1" =
      ((⟨some nodeW⟩ : KinematicTree).lookupJoint "j1").map
        (fun d =>
          { d with
            coord := (List.lookup "j1" [("j1", 5), ("ghost", 7)]).getD d.coord }) :=
  ⟨(C5_set_joint_coords ⟨some nodeW⟩ [("j1", 5), ("ghost", 7)]
      (by decide)).1,
   (C5_set_joint_coords ⟨some nodeW⟩ [("j1", 5), ("ghost", 7)]
      (by decide)).2 "j1"⟩

/-- C3: after `POST /api/offset/set_zero` for a joint `J` present in the
tree, the joint's `axis_offset` equals the negated coordinate read at call
time, its `axis_scale` and `coord` are unchanged, the override map entry for
`J` records the same `axis_offset` on top of the previous entry (a fresh
empty entry if there was none), and the effective joint value
`(coord + axis_offset) · axis_scale` is zero whatever `axis_scale` is. -/
theorem C3_set_zero (tm : Trig) (st : ServerState) (J : String)
    (jd : NodeData) (hJ : J ≠ "")
    (hfound : st.tree.lookupJoint J = some jd) :
    ((handle_set_zero tm st J).state.overrides J =
        some { (st.overrides J).getD OverrideEntry.empty with
               axis_offset := some (-jd.coord) }) ∧
      (((handle_set_zero tm st J).state.tree.lookupJoint J).map
          (fun d => (d.axis_offset, d.axis_scale, d.coord)) =
        some (-jd.coord, jd.axis_scale, jd.coord)) ∧
      (((handle_set_zero tm st J).state.tree.lookupJoint J).map
          NodeData.effective_coord = some 0) := by
  simp only [handle_set_zero, if_neg hJ, hfound]
  refine ⟨by simp, ?_, ?_⟩
  · have h := lookupJoint_write_update tm st.tree J
      (fun d => { d with axis_offset := -jd.coord })
      (fun d => rfl) (fun d => rfl)
      (fun d => (d.axis_offset, d.axis_scale, d.coord)) (fun d => rfl)
    rw [hfound] at h
    simpa using h
  · have h := lookupJoint_write_update tm st.tree J
      (fun d => { d with axis_offset := -jd.coord })
      (fun d => rfl) (fun d => rfl)
      NodeData.effective_coord (fun d => rfl)
    rw [hfound] at h
    simp only [Option.map_some'] at h
    rw [h]
    simp only [NodeData.effective_coord, Option.some_inj]
    ring

theorem C3_set_zero_witness :
    ((handle_set_zero trigW ⟨⟨some nodeW⟩, none, fun _ => none⟩
        "j1").state.overrides "j1" =
      some { OverrideEntry.empty with axis_offset := some (-2) }) ∧
      (((handle_set_zero trigW ⟨⟨some nodeW⟩, none, fun _ => none⟩
          "j1").state.tree.lookupJoint "j1").map
          (fun d => (d.axis_offset, d.axis_scale, d.coord)) =
        some (-2, 1, 2)) ∧
      (((handle_set_zero trigW ⟨⟨some nodeW⟩, none, fun _ => none⟩
          "j1").state.tree.lookupJoint "j1").map
          NodeData.effective_coord = some 0) :=
  C3_set_zero trigW ⟨⟨some nodeW⟩, none, fun _ => none⟩ "j1" dataW
    (by decide) (by rfl)

/-- C7: `POST /api/axis/override` merges exactly the numeric fields present
in the body into the override map entry and into the joint: present fields
take the body's value, absent fields keep their previous value on both
sides, `coord` is untouched, and an override map entry is created only when
the body carries at least one numeric field.  In particular setting only
`axis_scale` leaves `axis_offset` unchanged. -/
theorem C7_override_partial_merge (tm : Trig) (st : ServerState)
    (b : OverrideBody) (jd : NodeData) (hJ : b.joint_name ≠ "")
    (hfound : st.tree.lookupJoint b.joint_name = some jd) :
    (((handle_axis_override tm st b).state.tree.lookupJoint
          b.joint_name).map
        (fun d => (d.axis_offset, d.axis_scale, d.slider_min, d.slider_max,
          d.coord)) =
      some (b.axis_offset.getD jd.axis_offset,
        b.axis_scale.getD jd.axis_scale,
        b.slider_min.getD jd.slider_min,
        b.slider_max.getD jd.slider_max, jd.coord)) ∧
      (((handle_axis_override tm st b).state.overrides b.joint_name).getD
          OverrideEntry.empty =
        ⟨b.axis_offset.or
            (((st.overrides b.joint_name).getD OverrideEntry.empty).axis_offset),
         b.axis_scale.or
            (((st.overrides b.joint_name).getD OverrideEntry.empty).axis_scale),
         b.slider_min.or
            (((st.overrides b.joint_name).getD OverrideEntry.empty).slider_min),
         b.slider_max.or
            (((st.overrides b.joint_name).getD OverrideEntry.empty).slider_max)⟩) ∧
      (((handle_axis_override tm st b).state.overrides b.joint_name).isSome =
        ((st.overrides b.joint_name).isSome || b.any_field)) := by
  simp only [handle_axis_override, if_neg hJ, hfound]
  refine ⟨?_, ?_, ?_⟩
  · have h := lookupJoint_write_update tm st.tree b.joint_name
      b.apply_to_joint (fun d => rfl) (fun d => rfl)
      (fun d => (d.axis_offset, d.axis_scale, d.slider_min, d.slider_max,
        d.coord)) (fun d => rfl)
    rw [hfound] at h
    simpa [OverrideBody.apply_to_joint] using h
  · by_cases hb : b.any_field = true
    · simp only [hb, if_true, if_pos rfl, Option.getD_some,
        OverrideBody.mergeEntry]
      cases hbo : b.axis_offset <;> cases hbs : b.axis_scale <;>
        cases hbm : b.slider_min <;> cases hbx : b.slider_max <;>
        simp [Option.or]
    · have hb' : b.any_field = false := by
        cases h : b.any_field
        · rfl
        · exact absurd h hb
      have hall : b.axis_offset = none ∧ b.axis_scale = none ∧
          b.slider_min = none ∧ b.slider_max = none := by
        simp only [OverrideBody.any_field, Bool.or_eq_false_iff] at hb'
        refine ⟨?_, ?_, ?_, ?_⟩
        · exact Option.not_isSome_iff_eq_none.mp (by simp [hb'.1.1.1])
        · exact Option.not_isSome_iff_eq_none.mp (by simp [hb'.1.1.2])
        · exact Option.not_isSome_iff_eq_none.mp (by simp [hb'.1.2])
        · exact Option.not_isSome_iff_eq_none.mp (by simp [hb'.2])
      simp only [hb', Bool.false_eq_true, if_false, hall.1, hall.2.1,
        hall.2.2.1, hall.2.2.2, Option.or]
  · by_cases hb : b.any_field = true
    · simp [hb]
    · have hb' : b.any_field = false := by
        cases h : b.any_field
        · rfl
        · exact absurd h hb
      simp [hb']

theorem C7_override_partial_merge_witness :
    (((handle_axis_override trigW ⟨⟨some nodeW⟩, none, fun _ => none⟩
          ⟨"j1", none, some 3, none, none⟩).state.tree.lookupJoint
          "j1").map
        (fun d => (d.axis_offset, d.axis_scale, d.slider_min, d.slider_max,
          d.coord)) =
      some (0, 3, -180, 180, 2)) ∧
      (((handle_axis_override trigW ⟨⟨some nodeW⟩, none, fun _ => none⟩
          ⟨"j1", none, some 3, none, none⟩).state.overrides "j1").getD
          OverrideEntry.empty =
        ⟨none, some 3, none, none⟩) ∧
      (((handle_axis_override trigW ⟨⟨some nodeW⟩, none, fun _ => none⟩
          ⟨"j1", none, some 3, none, none⟩).state.overrides "j1").isSome =
        true) := by
  have h := C7_override_partial_merge trigW ⟨⟨some nodeW⟩, none, fun _ => none⟩
    ⟨"j1", none, some 3, none, none⟩ dataW (by decide) (by rfl)
  refine ⟨?_, ?_, ?_⟩
  · exact h.1
  · exact h.2.1
  · exact h.2.2

/-- C8: `DELETE /api/axis/overrides/{name}` for a joint that has an override
entry, exists in the current tree, and is found in the original tree
document removes the entry and restores the joint's four calibration fields
to the values `find_original_axis_params` reads off the document: the
declared numbers, or the defaults 0 / 1 and the type-dependent slider bounds
(−1000/1000 for an actuator, −180/180 otherwise) for undeclared fields, as
the final conjunct makes explicit on the node the document names. -/
theorem C8_delete_override_restores (tm : Trig) (st : ServerState)
    (J : String) (e : OverrideEntry) (doc : DocNode) (jd : NodeData)
    (orig : AxisParams) (hov : st.overrides J = some e)
    (hdoc : st.tree_doc = some doc)
    (hfound : st.tree.lookupJoint J = some jd)
    (horig : doc.find_original_axis_params J = some orig) :
    (((handle_delete_override tm st J).state.tree.lookupJoint J).map
        (fun d => (d.axis_offset, d.axis_scale, d.slider_min, d.slider_max)) =
      some (orig.axis_offset, orig.axis_scale, orig.slider_min,
        orig.slider_max)) ∧
      ((handle_delete_override tm st J).state.overrides J = none) ∧
      (∀ (dd : DocData) (cs : Option DocNodeList), dd.name.getD "" = J →
        DocNode.find_original_axis_params J (.mk dd cs) =
          some ⟨dd.axis_offset.getD 0, dd.axis_scale.getD 1,
            dd.slider_min.getD
              (if dd.type.getD "transform" = "actuator" then -1000 else -180),
            dd.slider_max.getD
              (if dd.type.getD "transform" = "actuator" then 1000 else 180)⟩) := by
  have h1 : ((handle_delete_override tm st J).state.tree.lookupJoint J).map
      (fun d => (d.axis_offset, d.axis_scale, d.slider_min, d.slider_max)) =
      some (orig.axis_offset, orig.axis_scale, orig.slider_min,
        orig.slider_max) := by
    simp only [handle_delete_override, hov, hdoc, hfound, horig]
    have h := lookupJoint_write_update tm st.tree J
      (fun d =>
        { d with
          axis_offset := orig.axis_offset
          axis_scale := orig.axis_scale
          slider_min := orig.slider_min
          slider_max := orig.slider_max })
      (fun d => rfl) (fun d => rfl)
      (fun d => (d.axis_offset, d.axis_scale, d.slider_min, d.slider_max))
      (fun d => rfl)
    rw [hfound] at h
    simpa using h
  have h2 : (handle_delete_override tm st J).state.overrides J = none := by
    simp only [handle_delete_override, hov, hdoc, hfound, horig]
    simp
  have h3 : ∀ (dd : DocData) (cs : Option DocNodeList), dd.name.getD "" = J →
      DocNode.find_original_axis_params J (.mk dd cs) =
        some ⟨dd.axis_offset.getD 0, dd.axis_scale.getD 1,
          dd.slider_min.getD
            (if dd.type.getD "transform" = "actuator" then -1000 else -180),
          dd.slider_max.getD
            (if dd.type.getD "transform" = "actuator" then 1000 else 180)⟩ := by
    intro dd cs h
    unfold DocNode.find_original_axis_params
    rw [if_pos h]
  exact ⟨h1, h2, h3⟩

theorem C8_delete_override_restores_witness :
    (((handle_delete_override trigW
          ⟨⟨some nodeW⟩, some docW,
            fun n => if n = "j1" then some ⟨some 9, none, none, none⟩ else none⟩
          "j1").state.tree.lookupJoint "j1").map
        (fun d => (d.axis_offset, d.axis_scale, d.slider_min, d.slider_max)) =
      some (0, 4, -180, 180)) ∧
      ((handle_delete_override trigW
          ⟨⟨some nodeW⟩, some docW,
            fun n => if n = "j1" then some ⟨some 9, none, none, none⟩ else none⟩
          "j1").state.overrides "j1" = none) := by
  have h := C8_delete_override_restores trigW
    ⟨⟨some nodeW⟩, some docW,
      fun n => if n = "j1" then some ⟨some 9, none, none, none⟩ else none⟩
    "j1" ⟨some 9, none, none, none⟩ docW dataW ⟨0, 4, -180, 180⟩
    (by simp) (by rfl) (by rfl) (by rfl)
  exact ⟨h.1, h.2.1⟩

/-- C9: for both calibration endpoints (`POST /api/offset/set_zero` and
`POST /api/axis/override`), the status is 400 exactly when the body's
`joint_name` is missing or empty (`as_string_default("")` makes the two
indistinguishable), 404 exactly when it is non-empty but absent from the
joints map, 200 otherwise; and on 400 or 404 the state (tree, override map,
hence also the persisted file: `save_axis_overrides` does not run) is
unchanged and `broadcast_scene_update` is not invoked. -/
theorem C9_status_codes (tm : Trig) (st : ServerState) (J : String)
    (b : OverrideBody) :
    (((handle_set_zero tm st J).status = 400 ↔ J = "") ∧
      ((handle_set_zero tm st J).status = 404 ↔
        J ≠ "" ∧ st.tree.lookupJoint J = none) ∧
      ((handle_set_zero tm st J).status = 200 ↔
        J ≠ "" ∧ (st.tree.lookupJoint J).isSome = true) ∧
      ((handle_set_zero tm st J).status ≠ 200 →
        (handle_set_zero tm st J).state = st ∧
          (handle_set_zero tm st J).saved = false ∧
          (handle_set_zero tm st J).broadcast = false)) ∧
    (((handle_axis_override tm st b).status = 400 ↔ b.joint_name = "") ∧
      ((handle_axis_override tm st b).status = 404 ↔
        b.joint_name ≠ "" ∧ st.tree.lookupJoint b.joint_name = none) ∧
      ((handle_axis_override tm st b).status = 200 ↔
        b.joint_name ≠ "" ∧ (st.tree.lookupJoint b.joint_name).isSome = true) ∧
      ((handle_axis_override tm st b).status ≠ 200 →
        (handle_axis_override tm st b).state = st ∧
          (handle_axis_override tm st b).saved = false ∧
          (handle_axis_override tm st b).broadcast = false)) := by
  constructor
  · by_cases hJ : J = ""
    · simp [handle_set_zero, hJ]
    · cases hfound : st.tree.lookupJoint J with
      | none => simp [handle_set_zero, hJ, hfound]
      | some jd => simp [handle_set_zero, hJ, hfound]
  · by_cases hJ : b.joint_name = ""
    · simp [handle_axis_override, hJ]
    · cases hfound : st.tree.lookupJoint b.joint_name with
      | none => simp [handle_axis_override, hJ, hfound]
      | some jd => simp [handle_axis_override, hJ, hfound]

/-- C4 counterexample: loading does not fail.  A document with its `name` and
`type` missing silently loads to a node named `"unnamed"` of type
`"transform"` (no `MalformedTree` outcome exists in `KinematicNode::load`,
which defaults every field), and a document with a duplicated node name
silently loads to a full tree whose joints map keeps the last `"j"` (the one
with `axis_offset` 5) — no `DuplicateName` outcome exists in
`KinematicTree::load`. -/
theorem C4_counterexample :
    ((docEmptyW.load).data.name = "unnamed" ∧
      (docEmptyW.load).data.type = "transform") ∧
      (((KinematicTree.load trigW docDupW).lookupJoint "j").map
          (fun d => d.axis_offset) = some 5) ∧
      ((KinematicTree.load trigW docDupW).get_scene_data.map Prod.fst =
        ["root", "j", "j"]) := by
  refine ⟨⟨rfl, rfl⟩, ?_, ?_⟩ <;> rfl

/-- C4 amended: loading never fails.  A missing `name` or `type` falls back
to `"unnamed"` / `"transform"`, an unrecognised type tag is kept but makes
the node a non-joint (it contributes no joint transform and no joints-map
entry), and duplicate names are silently accepted. -/
theorem C4_load_total_with_defaults (dd : DocData) (cs : Option DocNodeList) :
    ((DocNode.load (.mk dd cs)).data.name = dd.name.getD "unnamed") ∧
      ((DocNode.load (.mk dd cs)).data.type = dd.type.getD "transform") ∧
      (∀ h1 : dd.type.getD "transform" ≠ "rotator",
        ∀ h2 : dd.type.getD "transform" ≠ "actuator",
        ¬ (DocNode.load (.mk dd cs)).data.isJoint) := by
  refine ⟨rfl, rfl, ?_⟩
  intro h1 h2 hj
  cases hj with
  | inl h => exact h1 h
  | inr h => exact h2 h

/-- C10 counterexample: the orientation is not normalized on entry.  The
wire value `(0,0,0,2)` is stored verbatim, and its squared norm is 4, so the
stored quaternion is not the unit normalization `(0,0,0,1)` of the
document's values. -/
theorem C10_counterexample :
    ((docUnnormW.load).data.local_pose.orientation = ⟨0, 0, 0, 2⟩) ∧
      Quat.normSq ⟨0, 0, 0, 2⟩ ≠ 1 ∧
      (docUnnormW.load).data.local_pose.orientation ≠ ⟨0, 0, 0, 1⟩ := by
  refine ⟨rfl, ?_, ?_⟩
  · norm_num [Quat.normSq]
  · intro h
    have h2 : (2 : ℚ) = 1 := congrArg Quat.w h
    norm_num at h2

/-- C10 amended: quaternions are read from the wire verbatim, with no
normalization: a loaded node's `local_pose.orientation` is exactly
`Quat::from_trent` of the document's orientation value, which keeps the
first four entries as given and yields the identity `(0,0,0,1)` for a
missing, non-list or shorter-than-4 orientation. -/
theorem C10_orientation_verbatim :
    (Quat.from_trent none = Quat.identity) ∧
      (∀ l : List ℚ, l.length < 4 →
        Quat.from_trent (some l) = Quat.identity) ∧
      (∀ a b c w : ℚ, ∀ rest : List ℚ,
        Quat.from_trent (some (a :: b :: c :: w :: rest)) = ⟨a, b, c, w⟩) ∧
      (∀ (dd : DocData) (p : DocPose) (cs : Option DocNodeList),
        dd.pose = some p →
          (DocNode.load (.mk dd cs)).data.local_pose.orientation =
            Quat.from_trent p.orientation) := by
  refine ⟨rfl, ?_, ?_, ?_⟩
  · intro l h
    simp only [Quat.from_trent, if_pos h]
  · intro a b c w rest
    have h : ¬ (a :: b :: c :: w :: rest).length < 4 := by
      simp only [List.length_cons]
      omega
    simp only [Quat.from_trent, if_neg h]
    rfl
  · intro dd p cs h
    simp [DocNode.load, KNode.data, h]

end Webkin
